import Mathlib

/-!
Verification development for the nerf-navigation trajectory planner
(`quad_plot.py`).  The trajectory reconstruction (`System.calc_everything`),
the cost model (`System.get_state_cost`), the rotation logarithm
(`rot_matrix_to_vec`), the grid search (`astar`) and the checkpoint writer
(`System.save_progress`) are embedded shallowly.  Scalars are drawn from an
arbitrary linear ordered field `K`; the transcendental primitives used by the
code (`torch.sqrt`, `torch.sin`, `torch.cos`, `np.arccos`, `torch.exp`) are
collected in a record `Ops K` so that the development can be instantiated both
at `ℚ` (for executable checks) and at `ℝ` with the genuine functions.
-/

namespace NerfNav

/-- Interpretations of the transcendental scalar primitives appearing in the
source (`torch.sqrt`, `torch.sin`, `torch.cos`, `np.arccos`, `torch.exp`). -/
structure Ops (K : Type) where
  sqrt : K → K
  sin : K → K
  cos : K → K
  arccos : K → K
  exp : K → K

/-- Real interpretation of the scalar primitives. -/
noncomputable def realOps : Ops ℝ :=
  { sqrt := Real.sqrt, sin := Real.sin, cos := Real.cos,
    arccos := Real.arccos, exp := Real.exp }

/-- Placeholder rational interpretation of the scalar primitives; used to
instantiate statements whose truth does not depend on them. -/
def trivOps : Ops ℚ := { sqrt := id, sin := id, cos := id, arccos := id, exp := id }

/-- A 3-vector (one row of an `(S, 3)` tensor). -/
structure Vec3 (K : Type) where
  x : K
  y : K
  z : K
deriving DecidableEq, Repr

namespace Vec3

variable {K : Type} [LinearOrderedField K]

instance : Add (Vec3 K) := ⟨fun a b => ⟨a.x + b.x, a.y + b.y, a.z + b.z⟩⟩
instance : Sub (Vec3 K) := ⟨fun a b => ⟨a.x - b.x, a.y - b.y, a.z - b.z⟩⟩
instance : Neg (Vec3 K) := ⟨fun a => ⟨-a.x, -a.y, -a.z⟩⟩
instance : Zero (Vec3 K) := ⟨⟨0, 0, 0⟩⟩

/-- Multiplication of a vector by a scalar (`v * c` in torch). -/
def smul (v : Vec3 K) (c : K) : Vec3 K := ⟨v.x * c, v.y * c, v.z * c⟩

/-- Division of a vector by a scalar (`v / c` in torch). -/
def sdiv (v : Vec3 K) (c : K) : Vec3 K := ⟨v.x / c, v.y / c, v.z / c⟩

/-- Sum of squared components (so that `torch.norm v = sqrt v.normSq`). -/
def normSq (v : Vec3 K) : K := v.x ^ 2 + v.y ^ 2 + v.z ^ 2

/-- Cross product (`torch.cross`). -/
def cross (a b : Vec3 K) : Vec3 K :=
  ⟨a.y * b.z - a.z * b.y, a.z * b.x - a.x * b.z, a.x * b.y - a.y * b.x⟩

@[simp] theorem add_def (a b : Vec3 K) : a + b = ⟨a.x + b.x, a.y + b.y, a.z + b.z⟩ := rfl
@[simp] theorem sub_def (a b : Vec3 K) : a - b = ⟨a.x - b.x, a.y - b.y, a.z - b.z⟩ := rfl
@[simp] theorem zero_def : (0 : Vec3 K) = ⟨0, 0, 0⟩ := rfl

end Vec3

/-- A 3×3 matrix (one slice of an `(S, 3, 3)` tensor), row major. -/
structure Mat3 (K : Type) where
  a00 : K
  a01 : K
  a02 : K
  a10 : K
  a11 : K
  a12 : K
  a20 : K
  a21 : K
  a22 : K
deriving DecidableEq, Repr

namespace Mat3

variable {K : Type} [LinearOrderedField K]

instance : One (Mat3 K) := ⟨⟨1, 0, 0, 0, 1, 0, 0, 0, 1⟩⟩

/-- Matrix product (`A @ B`). -/
def mul (A B : Mat3 K) : Mat3 K :=
  ⟨A.a00 * B.a00 + A.a01 * B.a10 + A.a02 * B.a20,
   A.a00 * B.a01 + A.a01 * B.a11 + A.a02 * B.a21,
   A.a00 * B.a02 + A.a01 * B.a12 + A.a02 * B.a22,
   A.a10 * B.a00 + A.a11 * B.a10 + A.a12 * B.a20,
   A.a10 * B.a01 + A.a11 * B.a11 + A.a12 * B.a21,
   A.a10 * B.a02 + A.a11 * B.a12 + A.a12 * B.a22,
   A.a20 * B.a00 + A.a21 * B.a10 + A.a22 * B.a20,
   A.a20 * B.a01 + A.a21 * B.a11 + A.a22 * B.a21,
   A.a20 * B.a02 + A.a21 * B.a12 + A.a22 * B.a22⟩

instance : Mul (Mat3 K) := ⟨mul⟩

/-- Matrix–vector product (`A @ v`). -/
def mulVec (A : Mat3 K) (v : Vec3 K) : Vec3 K :=
  ⟨A.a00 * v.x + A.a01 * v.y + A.a02 * v.z,
   A.a10 * v.x + A.a11 * v.y + A.a12 * v.z,
   A.a20 * v.x + A.a21 * v.y + A.a22 * v.z⟩

/-- Transpose (`swapdims(-1, -2)`). -/
def transpose (A : Mat3 K) : Mat3 K :=
  ⟨A.a00, A.a10, A.a20, A.a01, A.a11, A.a21, A.a02, A.a12, A.a22⟩

/-- Trace (`torch.diagonal(...).sum(-1)`). -/
def trace (A : Mat3 K) : K := A.a00 + A.a11 + A.a22

/-- Matrix assembled from three column vectors
(`torch.stack([x, y, z], dim=-1)`). -/
def fromCols (cx cy cz : Vec3 K) : Mat3 K :=
  ⟨cx.x, cy.x, cz.x, cx.y, cy.y, cz.y, cx.z, cy.z, cz.z⟩

/-- Orthonormality of a rotation matrix: `Aᵀ A = 1`. -/
def IsOrthonormal (A : Mat3 K) : Prop := A.transpose * A = 1

end Mat3

section Rotation

variable {K : Type} [LinearOrderedField K]

/-- Sign function used by `torch.sign`. -/
def sgn (x : K) : K := if 0 < x then 1 else if x < 0 then -1 else 0

/-- The guarded arccosine of `quad_plot.acos_safe` (defaulted `eps = 1e-4`):
inputs within `eps` of ±1 take a linear extrapolation of `arccos` with slope
`arccos(1 - eps) / eps`. -/
def acos_safe (ops : Ops K) (x : K) : K :=
  let eps : K := 1 / 10000
  let slope : K := ops.arccos (1 - eps) / eps
  if |x| ≤ 1 - eps then ops.arccos x
  else ops.arccos (sgn x * (1 - eps)) - slope * sgn x * (|x| - 1 + eps)

/-- The SO(3) logarithm `quad_plot.rot_matrix_to_vec` (single matrix of the
batch): angle from the guarded arccosine of `(trace - 1)/2`, axis from the
skew part divided by `2 sin(angle + 1e-5)`, with the division-by-zero result
overwritten by the zero vector when the angle is exactly zero, and the final
result scaled by the angle. -/
def rot_matrix_to_vec (ops : Ops K) (R : Mat3 K) : Vec3 K :=
  let angle : K := acos_safe ops ((R.trace - 1) / 2)
  let v : Vec3 K :=
    (Vec3.mk (R.a21 - R.a12) (R.a02 - R.a20) (R.a10 - R.a01)).smul
      (1 / (2 * ops.sin (angle + 1 / 100000)))
  let vec : Vec3 K := if angle = 0 then 0 else v
  vec.smul angle

/-- Modelled from the spec: `vec_to_rot_matrix` is imported from
`quad_helpers`, which is absent from the sources; spec §4.1 describes it as
the Rodrigues exponential map with `|v|` the rotation angle and `v/|v|` the
axis, the degenerate case `v = 0` mapping to the identity. -/
def vec_to_rot_matrix (ops : Ops K) (v : Vec3 K) : Mat3 K :=
  let angle : K := ops.sqrt v.normSq
  if angle = 0 then 1
  else
    let ax : Vec3 K := v.sdiv angle
    let s : K := ops.sin angle
    let c : K := ops.cos angle
    let skew : Mat3 K := ⟨0, -ax.z, ax.y, ax.z, 0, -ax.x, -ax.y, ax.x, 0⟩
    let skew2 : Mat3 K := skew * skew
    ⟨1 + s * skew.a00 + (1 - c) * skew2.a00, s * skew.a01 + (1 - c) * skew2.a01,
     s * skew.a02 + (1 - c) * skew2.a02, s * skew.a10 + (1 - c) * skew2.a10,
     1 + s * skew.a11 + (1 - c) * skew2.a11, s * skew.a12 + (1 - c) * skew2.a12,
     s * skew.a20 + (1 - c) * skew2.a20, s * skew.a21 + (1 - c) * skew2.a21,
     1 + s * skew.a22 + (1 - c) * skew2.a22⟩

/-- Modelled from the spec: `next_rotation` is imported from `quad_helpers`,
which is absent from the sources; spec §4.1 describes it as a first-order
retraction integrating the body angular velocity `omega` for one time step,
i.e. the exponential of `omega * dt` composed with `R`. -/
def next_rotation (ops : Ops K) (R : Mat3 K) (omega : Vec3 K) (dt : K) : Mat3 K :=
  vec_to_rot_matrix ops (omega.smul dt) * R

end Rotation

/-- The 18-scalar full state (`start_state` / `end_state`): position `[0:3]`,
velocity `[3:6]`, rotation matrix `[6:15]`, body angular velocity `[15:18]`. -/
structure FullState (K : Type) where
  pos : Vec3 K
  vel : Vec3 K
  rot : Mat3 K
  omega : Vec3 K
deriving DecidableEq

/-- One row of `self.states`: a reduced state, 3 position components and a
heading angle. -/
structure Red (K : Type) where
  pos : Vec3 K
  ang : K
deriving DecidableEq

/-- The configuration dictionary fields used by `System`. -/
structure Config (K : Type) where
  Tfinal : K
  steps : ℕ
  fadeOutEpoch : ℕ
  fadeOutSharpness : K
deriving DecidableEq

/-- One row of the action tensor: `fz` (net thrust) and the torque vector. -/
structure Act (K : Type) where
  thrust : K
  torque : Vec3 K
deriving DecidableEq

instance {K : Type} [LinearOrderedField K] : Inhabited (Act K) := ⟨⟨0, 0⟩⟩

/-- The seven tensors returned by `System.calc_everything`. -/
structure Traj (K : Type) where
  pos : List (Vec3 K)
  vel : List (Vec3 K)
  accel : List (Vec3 K)
  rot : List (Mat3 K)
  omega : List (Vec3 K)
  angAccel : List (Vec3 K)
  actions : List (Act K)
deriving DecidableEq

/-- Three-list pointwise zip, mirroring elementwise tensor expressions over
three equally shaped tensors. -/
def zipWith3 {α β γ δ : Type} (f : α → β → γ → δ) : List α → List β → List γ → List δ
  | a :: as, b :: bs, c :: cs => f a b c :: zipWith3 f as bs cs
  | _, _, _ => []

section System

variable {K : Type} [LinearOrderedField K]
variable (ops : Ops K) (cfg : Config K) (st en : FullState K) (ia : K × K)
variable (states : List (Red K))

/-- Gravity `self.g = torch.tensor([0, 0, -10])`. -/
def gvec : Vec3 K := ⟨0, 0, -10⟩

/-- The body z-axis `torch.tensor([0, 0, 1.0])`. -/
def e3 : Vec3 K := ⟨0, 0, 1⟩

/-- The inertia tensor `self.J = torch.eye(3)`. -/
def Jmat : Mat3 K := 1

/-- The mass `self.mass = 1`. -/
def massK : K := 1

/-- The time step `self.dt = T_final / steps`. -/
def dtv : K := cfg.Tfinal / (cfg.steps : K)

/-- Mirrors `next_pos = start_pos + start_v * dt`. -/
def nextPos : Vec3 K := st.pos + st.vel.smul (dtv cfg)

/-- Mirrors `last_pos = end_pos - end_v * dt`. -/
def lastPos : Vec3 K := en.pos - en.vel.smul (dtv cfg)

/-- Mirrors `next_R = next_rotation(start_R, start_omega, dt)`. -/
def nextR : Mat3 K := next_rotation ops st.rot st.omega (dtv cfg)

/-- Mirrors `last_R = next_rotation(end_R, end_omega, -dt)`. -/
def lastR : Mat3 K := next_rotation ops en.rot en.omega (-(dtv cfg))

/-- Mirrors `start_accel = start_R @ [0,0,1] * initial_accel[0] + g`. -/
def startAccel : Vec3 K := (st.rot.mulVec e3).smul ia.1 + gvec

/-- Mirrors `next_accel = next_R @ [0,0,1] * initial_accel[1] + g`. -/
def nextAccel : Vec3 K := ((nextR ops cfg st).mulVec e3).smul ia.2 + gvec

/-- Mirrors `next_vel = start_v + start_accel * dt`. -/
def nextVel : Vec3 K := st.vel + (startAccel st ia).smul (dtv cfg)

/-- Mirrors `after_next_pos = next_pos + next_vel * dt`. -/
def afterNextPos : Vec3 K := nextPos cfg st + (nextVel cfg st ia).smul (dtv cfg)

/-- Mirrors `after_next_vel = next_vel + next_accel * dt`. -/
def afterNextVel : Vec3 K := nextVel cfg st ia + (nextAccel ops cfg st ia).smul (dtv cfg)

/-- Mirrors `after2_next_pos = after_next_pos + after_next_vel * dt`. -/
def after2NextPos : Vec3 K := afterNextPos cfg st ia + (afterNextVel ops cfg st ia).smul (dtv cfg)

/-- Mirrors `current_pos = cat([start_pos, next_pos, after_next_pos, after2_next_pos,
states[2:, :3], last_pos, end_pos])`. -/
def currentPos : List (Vec3 K) :=
  [st.pos, nextPos cfg st, afterNextPos cfg st ia, after2NextPos ops cfg st ia] ++
    (states.drop 2).map Red.pos ++ [lastPos cfg en, en.pos]

/-- Mirrors `current_vel = (current_pos[1:] - current_pos[:-1]) / dt`, then
`cat([current_vel, end_v])`. -/
def currentVel : List (Vec3 K) :=
  List.zipWith (fun n p => (n - p).sdiv (dtv cfg))
      ((currentPos ops cfg st en ia states).drop 1) (currentPos ops cfg st en ia states) ++
    [en.vel]

/-- Mirrors `(current_vel[1:] - current_vel[:-1]) / dt - g`. -/
def currentAccelCore : List (Vec3 K) :=
  List.zipWith (fun n p => (n - p).sdiv (dtv cfg) - gvec)
    ((currentVel ops cfg st en ia states).drop 1) (currentVel ops cfg st en ia states)

/-- Mirrors `current_accel = cat([current_accel, current_accel[-1]])`. -/
def currentAccel : List (Vec3 K) :=
  currentAccelCore ops cfg st en ia states ++
    [(currentAccelCore ops cfg st en ia states).getLastD 0]

/-- Mirrors `accel_mag = torch.norm(current_accel, dim=-1)`. -/
def accelMag : List K :=
  (currentAccel ops cfg st en ia states).map fun a => ops.sqrt a.normSq

/-- Mirrors `z_axis_body = (current_accel / accel_mag)[2:-2]`. -/
def zAxisBody : List (Vec3 K) :=
  ((List.zipWith Vec3.sdiv (currentAccel ops cfg st en ia states)
      (accelMag ops cfg st en ia states)).drop 2).dropLast.dropLast

/-- Mirrors `z_angle = states[:, 3]`. -/
def zAngle : List K := states.map Red.ang

/-- Mirrors `in_plane_heading = stack([sin z, -cos z, 0], dim=-1)`. -/
def inPlane : List (Vec3 K) :=
  (zAngle states).map fun a => ⟨ops.sin a, -(ops.cos a), 0⟩

/-- Mirrors `x_axis_body = cross(z_axis_body, in_plane_heading)`, then normalized. -/
def xAxisBody : List (Vec3 K) :=
  (List.zipWith Vec3.cross (zAxisBody ops cfg st en ia states)
      (inPlane ops states)).map fun v => v.sdiv (ops.sqrt v.normSq)

/-- Mirrors `y_axis_body = cross(z_axis_body, x_axis_body)`. -/
def yAxisBody : List (Vec3 K) :=
  List.zipWith Vec3.cross (zAxisBody ops cfg st en ia states)
    (xAxisBody ops cfg st en ia states)

/-- Mirrors `rot_matrix = stack([x_axis_body, y_axis_body, z_axis_body], dim=-1)`
for the interior steps. -/
def interiorRot : List (Mat3 K) :=
  zipWith3 Mat3.fromCols (xAxisBody ops cfg st en ia states)
    (yAxisBody ops cfg st en ia states) (zAxisBody ops cfg st en ia states)

/-- Mirrors `rot_matrix = cat([start_R, next_R, rot_matrix, last_R, end_R])`. -/
def rotSeq : List (Mat3 K) :=
  [st.rot, nextR ops cfg st] ++ interiorRot ops cfg st en ia states ++
    [lastR ops cfg en, en.rot]

/-- Mirrors `rot_matrix_to_vec(rot[1:] @ rot[:-1]ᵀ) / dt`. -/
def omegaCore : List (Vec3 K) :=
  List.zipWith (fun r2 r1 => (rot_matrix_to_vec ops (r2 * r1.transpose)).sdiv (dtv cfg))
    ((rotSeq ops cfg st en ia states).drop 1) (rotSeq ops cfg st en ia states)

/-- Mirrors `current_omega = cat([current_omega, end_omega])`. -/
def omegaSeq : List (Vec3 K) :=
  omegaCore ops cfg st en ia states ++ [en.omega]

/-- Mirrors `(current_omega[1:] - current_omega[:-1]) / dt`. -/
def angAccelCore : List (Vec3 K) :=
  List.zipWith (fun n p => (n - p).sdiv (dtv cfg))
    ((omegaSeq ops cfg st en ia states).drop 1) (omegaSeq ops cfg st en ia states)

/-- Mirrors `angular_accel = cat([angular_accel, angular_accel[-1]])`. -/
def angAccelSeq : List (Vec3 K) :=
  angAccelCore ops cfg st en ia states ++
    [(angAccelCore ops cfg st en ia states).getLastD 0]

/-- Mirrors `torques = (J @ angular_accel[..., None])[..., 0]`. -/
def torquesSeq : List (Vec3 K) :=
  (angAccelSeq ops cfg st en ia states).map fun a => Jmat.mulVec a

/-- Mirrors `actions = cat([accel_mag * mass, torques], dim=-1)`. -/
def actionsSeq : List (Act K) :=
  List.zipWith (fun m t => Act.mk (m * massK) t)
    (accelMag ops cfg st en ia states) (torquesSeq ops cfg st en ia states)

/-- Mirrors `System.calc_everything`: the full reconstructed trajectory
`(pos, vel, accel, rot_matrix, omega, angular_accel, actions)`. -/
def calcEverything : Traj K :=
  ⟨currentPos ops cfg st en ia states,
   currentVel ops cfg st en ia states,
   currentAccel ops cfg st en ia states,
   rotSeq ops cfg st en ia states,
   omegaSeq ops cfg st en ia states,
   angAccelSeq ops cfg st en ia states,
   actionsSeq ops cfg st en ia states⟩

end System

section Cost

variable {K : Type} [LinearOrderedField K]
variable (ops : Ops K) (cfg : Config K) (st en : FullState K) (ia : K × K)
variable (states : List (Red K))

/-- The elementwise epsilon `1e-5` added inside the distance term. -/
def eps5 : K := 1 / 100000

/-- Mirrors `torch.linspace(a, b, n)` as a list. -/
def linspaceAB (a b : K) (n : ℕ) : List K :=
  (List.range n).map fun i : ℕ => a + (b - a) * (i : K) / ((n : K) - 1)

/-- Mirrors `torch.linspace(0, 1, n)`. -/
def linspace01 (n : ℕ) : List K :=
  (List.range n).map fun i : ℕ => (i : K) / ((n : K) - 1)

/-- The robot body point cloud `self.robot_body`: the meshgrid of
`linspace(-0.05, 0.05, 10) × linspace(-0.05, 0.05, 10) ×
linspace(-0.02, 0.02, 5)` reshaped to `(500, 3)`. -/
def robotBody : List (Vec3 K) :=
  (linspaceAB (-(1 / 20)) (1 / 20) 10).flatMap fun px =>
    (linspaceAB (-(1 / 20)) (1 / 20) 10).flatMap fun py =>
      (linspaceAB (-(1 / 50)) (1 / 50) 5).map fun pz => Vec3.mk px py pz

/-- Mirrors `System.body_to_world`: `rot_matrix @ points.T + pos[..., None]`, one list
of world points per trajectory step. -/
def bodyToWorld (points : List (Vec3 K)) : List (List (Vec3 K)) :=
  List.zipWith (fun R p => points.map fun q => R.mulVec q + p)
    (rotSeq ops cfg st en ia states) (currentPos ops cfg st en ia states)

/-- Mirrors `torch.mean` over a 1-D tensor. -/
def meanK (l : List K) : K := l.sum / (l.length : K)

/-- Mirrors `density = nerf(body_to_world(robot_body))**2`, one row per step. -/
def densitySq (nerf : Vec3 K → K) : List (List K) :=
  (bodyToWorld ops cfg st en ia states robotBody).map fun row =>
    row.map fun p => nerf p ^ 2

/-- Modelled from the spec: the HEAD branch computes the distance factor from
`self.get_states()`, a method absent from the sources; per spec §4.3.5 and
§4.4 the per-step states are the reconstructed positions, so the inter-step
deltas are taken on `current_pos`.  The code is
`torch.sum((next_state - prev_state)[..., :3]**2 + 1e-5, dim=-1)**0.5`. -/
def distanceHead : List K :=
  List.zipWith
    (fun n p => ops.sqrt (((n.x - p.x) ^ 2 + eps5) + ((n.y - p.y) ^ 2 + eps5) +
      ((n.z - p.z) ^ 2 + eps5)))
    ((currentPos ops cfg st en ia states).drop 1) (currentPos ops cfg st en ia states)

/-- HEAD-branch collision cost:
`colision_prob = mean(nerf(body_to_world(robot_body)[1:])**2, dim=-1) * distance`. -/
def colisionHead (nerf : Vec3 K → K) : List K :=
  List.zipWith (fun row dist => meanK row * dist)
    ((densitySq ops cfg st en ia states nerf).drop 1)
    (distanceHead ops cfg st en ia states)

/-- Merge-branch distance factor:
`distance = torch.sum(vel**2 + 1e-5, dim=-1)**0.5`. -/
def distanceMerge : List K :=
  (currentVel ops cfg st en ia states).map fun v =>
    ops.sqrt ((v.x ^ 2 + eps5) + (v.y ^ 2 + eps5) + (v.z ^ 2 + eps5))

/-- Merge-branch collision cost:
`colision_prob = mean(nerf(body_to_world(robot_body))**2, dim=-1) * distance`. -/
def colisionMerge (nerf : Vec3 K → K) : List K :=
  List.zipWith (fun row dist => meanK row * dist)
    (densitySq ops cfg st en ia states nerf)
    (distanceMerge ops cfg st en ia states)

/-- Mirrors `torch.sigmoid`. -/
def sigmoid (x : K) : K := 1 / (1 + ops.exp (-x))

/-- The fade-in multiplier row
`torch.sigmoid(fade_out_sharpness * (epoch / fade_out_epoch - linspace(0, 1, n)))`. -/
def fadeMask (sharp : K) (fe epoch n : ℕ) : List K :=
  (linspace01 n).map fun t => sigmoid ops (sharp * ((epoch : K) / (fe : K) - t))

/-- The fade-in branch of `get_state_cost`: when `epoch < fade_out_epoch` the
collision cost row is multiplied elementwise by the sigmoid mask, otherwise
it is left untouched. -/
def applyFade (sharp : K) (fe epoch : ℕ) (cp : List K) : List K :=
  if epoch < fe then List.zipWith (fun c m => c * m) cp (fadeMask ops sharp fe epoch cp.length)
  else cp

/-- The first component returned by `get_state_cost` (merge branch):
`1000 * fz**2 + 0.01 * torques**4 + colision_prob * 1e6` where
`torques = torch.norm(actions[:, 1:], dim=-1)` and `colision_prob` has the
fade-in mask applied. -/
def stateCost (nerf : Vec3 K → K) (epoch : ℕ) : List K :=
  let fz := (actionsSeq ops cfg st en ia states).map Act.thrust
  let torques := (actionsSeq ops cfg st en ia states).map fun a => ops.sqrt a.torque.normSq
  let cp := applyFade ops cfg.fadeOutSharpness cfg.fadeOutEpoch epoch
    (colisionMerge ops cfg st en ia states nerf)
  zipWith3 (fun f t c => 1000 * f ^ 2 + (1 / 100) * t ^ 4 + c * 1000000) fz torques cp

/-- Literal reading of claim C3 (spec wording): per-step collision cost is the
mean over body points of the squared density times the exact Euclidean norm
of the inter-step position delta. -/
def colisionSpecC3 (nerf : Vec3 K → K) (i : ℕ) : K :=
  meanK ((densitySq ops cfg st en ia states nerf).getD (i + 1) []) *
    ops.sqrt (((currentPos ops cfg st en ia states).getD (i + 1) 0 -
      (currentPos ops cfg st en ia states).getD i 0).normSq)

end Cost

section Astar

/-- A voxel grid cell, a Python integer 3-tuple. -/
abbrev Cell : Type := ℤ × ℤ × ℤ

/-- An exact heap priority `g + sqrt h2` (`tentative_g_score + heuristic`):
`g` is the accumulated unit-step cost, `h2` the squared Euclidean distance to
the goal. -/
abbrev Prio : Type := ℕ × ℕ

/-- Decides `sqrt b ≤ t + sqrt d` by integer arithmetic. -/
def sqrtLeInt (b : ℕ) (t : ℤ) (d : ℕ) : Bool :=
  if 0 ≤ t then
    let u : ℤ := (b : ℤ) - t ^ 2 - (d : ℤ)
    if u ≤ 0 then true else decide (u ^ 2 ≤ 4 * t ^ 2 * (d : ℤ))
  else
    let u : ℤ := (d : ℤ) - (b : ℤ) - t ^ 2
    if u < 0 then false else decide (4 * t ^ 2 * (b : ℤ) ≤ u ^ 2)

/-- Exact comparison of priorities: `g1 + sqrt h1 ≤ g2 + sqrt h2`. -/
def prioLeB (a b : Prio) : Bool := sqrtLeInt a.2 ((b.1 : ℤ) - (a.1 : ℤ)) b.2

/-- Strict order on heap nodes `(fscore, cell)`: smaller fscore first, ties by
the lexicographic cell order (as Python tuple comparison does). -/
def nodeLt (a b : Prio × Cell) : Bool :=
  (prioLeB a.1 b.1 && !prioLeB b.1 a.1) ||
    (prioLeB a.1 b.1 && prioLeB b.1 a.1 &&
      decide (a.2.1 < b.2.1 ∨ (a.2.1 = b.2.1 ∧ (a.2.2.1 < b.2.2.1 ∨
        (a.2.2.1 = b.2.2.1 ∧ a.2.2.2 < b.2.2.2)))))

/-- The minimum node of a nonempty open list (`heapq.heappop` pops a node of
least priority). -/
def popMin (h : Prio × Cell) (t : List (Prio × Cell)) : Prio × Cell :=
  t.foldl (fun best x => if nodeLt x best then x else best) h

/-- The occupancy grid: its shape and the boolean occupancy per cell. -/
structure Grid where
  nx : ℕ
  ny : ℕ
  nz : ℕ
  occ : Cell → Bool

/-- Mirrors `inbounds`: every coordinate within `[0, size)`. -/
def inboundsB (g : Grid) (c : Cell) : Bool :=
  decide (0 ≤ c.1) && decide (c.1 < (g.nx : ℤ)) &&
  decide (0 ≤ c.2.1) && decide (c.2.1 < (g.ny : ℤ)) &&
  decide (0 ≤ c.2.2) && decide (c.2.2 < (g.nz : ℤ))

/-- The squared Euclidean distance between cells; `heuristic` is its square
root. -/
def sqDist (a b : Cell) : ℕ :=
  ((b.1 - a.1) ^ 2 + (b.2.1 - a.2.1) ^ 2 + (b.2.2 - a.2.2) ^ 2).toNat

/-- The six unit neighbor moves. -/
def neighborDirs : List Cell :=
  [(1, 0, 0), (-1, 0, 0), (0, 1, 0), (0, -1, 0), (0, 0, 1), (0, 0, -1)]

/-- The result of the search: a path, the explicit `PathNotFound` failure
(`raise ValueError("Failed to find path!")`), or exhaustion of the
step budget of the embedding. -/
inductive AResult where
  | found : List Cell → AResult
  | notFound : AResult
  | outOfFuel : AResult
deriving DecidableEq

/-- Path reconstruction: follow the `came_from` backpointers from the popped
goal cell, accumulating the cells in start-to-goal order (the code appends and
then reverses). -/
def walkBack (cf : List (Cell × Cell)) : ℕ → Cell → List Cell → List Cell
  | 0, c, acc => c :: acc
  | n + 1, c, acc =>
    match cf.lookup c with
    | some p => walkBack cf n p (c :: acc)
    | none => c :: acc

/-- The neighbor-expansion body of the A* loop: for each of the six moves,
skip out-of-bounds and occupied cells, and on a strict `g` improvement update
`came_from` and `gscore` and push `(fscore, neighbor)` unless that exact node
is already in the open list. -/
def expand (g : Grid) (goal cur : Cell)
    (acc : List (Prio × Cell) × List (Cell × Cell) × List (Cell × ℕ))
    (d : Cell) : List (Prio × Cell) × List (Cell × Cell) × List (Cell × ℕ) :=
  let (openL, cameFrom, gscore) := acc
  let nb : Cell := (cur.1 + d.1, cur.2.1 + d.2.1, cur.2.2 + d.2.2)
  if !inboundsB g nb then acc
  else if g.occ nb then acc
  else
    let tent : ℕ := (gscore.lookup cur).getD 0 + 1
    let better : Bool :=
      match gscore.lookup nb with
      | none => true
      | some gv => decide (tent < gv)
    if better then
      let node : Prio × Cell := ((tent, sqDist nb goal), nb)
      (if node ∈ openL then openL else openL ++ [node],
        (nb, cur) :: cameFrom, (nb, tent) :: gscore)
    else acc

/-- The main A* loop of `quad_plot.astar`.  When the open list is empty the
explicit failure is returned; otherwise the least node is popped, the goal
test performed, the cell closed and the neighbors expanded. -/
def astarLoop (g : Grid) (goal : Cell) (fuel : ℕ) (openL : List (Prio × Cell))
    (closeSet : List Cell) (cameFrom : List (Cell × Cell))
    (gscore : List (Cell × ℕ)) : AResult :=
  match openL with
  | [] => AResult.notFound
  | h :: t =>
    match fuel with
    | 0 => AResult.outOfFuel
    | fuel' + 1 =>
      let cur := popMin h t
      let rest := (h :: t).erase cur
      if cur.2 = goal then
        AResult.found (walkBack cameFrom (cameFrom.length + 1) cur.2 [])
      else
        let closeSet' := cur.2 :: closeSet
        let acc := neighborDirs.foldl (expand g goal cur.2) (rest, cameFrom, gscore)
        astarLoop g goal fuel' acc.1 closeSet' acc.2.1 acc.2.2

/-- Mirrors `quad_plot.astar(occupied, start, goal)`: the open heap starts with
`(heuristic(start, goal), start)` and `gscore = {start: 0}`. -/
def astar (g : Grid) (start goal : Cell) (fuel : ℕ) : AResult :=
  astarLoop g goal fuel [((0, sqDist start goal), start)] [] [] [(start, 0)]

/-- A 3×2×2 grid whose whole `x = 1` plane is occupied: a fully occupied
dividing plane between the `x = 0` and `x = 2` faces. -/
def planeGrid : Grid := ⟨3, 2, 2, fun c => decide (c.1 = 1)⟩

end Astar

section Checkpoint

/-- The content of the checkpoint path: `none` when no file exists. -/
abbrev FileState (α : Type) : Type := Option α

/-- Mirrors `os.remove(filename)`: raises (`none` outcome) when the file does not
exist, otherwise leaves the path empty. -/
def removeFile {α : Type} (fs : FileState α) : Option (FileState α) :=
  match fs with
  | none => none
  | some _ => some none

/-- Mirrors `torch.save(self.states, filename)`: (re)creates the file with the new
content. -/
def writeFile {α : Type} (_fs : FileState α) (new : α) : Option (FileState α) :=
  some (some new)

/-- Mirrors `System.save_progress(filename)`: `os.remove(filename)` followed by
`torch.save(self.states, filename)`. -/
def saveProgress {α : Type} (fs : FileState α) (new : α) : Option (FileState α) :=
  (removeFile fs).bind fun fs1 => writeFile fs1 new

/-- The file state reached when the run is interrupted (or the save raises)
right after the first file operation of `save_progress`, i.e. after the
`os.remove` and before `torch.save` completes. -/
def saveProgressAborted {α : Type} (fs : FileState α) : Option (FileState α) :=
  removeFile fs

end Checkpoint

section ListHelpers

variable {α β γ δ : Type}

theorem getD_zipWith (f : α → β → γ) (l1 : List α) (l2 : List β) (i : ℕ) (d : γ)
    (d1 : α) (d2 : β) (h1 : i < l1.length) (h2 : i < l2.length) :
    (List.zipWith f l1 l2).getD i d = f (l1.getD i d1) (l2.getD i d2) := by
  simp [List.getD_eq_getElem?_getD, List.getElem?_zipWith, List.getElem?_eq_getElem, h1, h2]

theorem getD_map (f : α → β) (l : List α) (i : ℕ) (d : β) (d1 : α)
    (h : i < l.length) :
    (l.map f).getD i d = f (l.getD i d1) := by
  simp [List.getD_eq_getElem?_getD, List.getElem?_map, List.getElem?_eq_getElem, h]

theorem getD_drop (l : List α) (k i : ℕ) (d : α) :
    (l.drop k).getD i d = l.getD (k + i) d := by
  simp [List.getD_eq_getElem?_getD, List.getElem?_drop]

theorem getD_append_left (l1 l2 : List α) (i : ℕ) (d : α) (h : i < l1.length) :
    (l1 ++ l2).getD i d = l1.getD i d :=
  List.getD_append l1 l2 d i h

theorem getLastD_append_singleton (l : List α) (a d : α) :
    (l ++ [a]).getLastD d = a := by
  simp [List.getLastD_eq_getLast?, List.getLast?_append]

theorem length_zipWith3 (f : α → β → γ → δ) :
    ∀ (l1 : List α) (l2 : List β) (l3 : List γ),
      (zipWith3 f l1 l2 l3).length = min l1.length (min l2.length l3.length)
  | [], [], [] => by simp [zipWith3]
  | [], [], _ :: _ => by simp [zipWith3]
  | [], _ :: _, [] => by simp [zipWith3]
  | [], _ :: _, _ :: _ => by simp [zipWith3]
  | _ :: _, [], [] => by simp [zipWith3]
  | _ :: _, [], _ :: _ => by simp [zipWith3]
  | _ :: _, _ :: _, [] => by simp [zipWith3]
  | a :: as, b :: bs, c :: cs => by
    simp [zipWith3, length_zipWith3 f as bs cs]
    omega

theorem getD_zipWith3 (f : α → β → γ → δ) :
    ∀ (l1 : List α) (l2 : List β) (l3 : List γ) (i : ℕ) (d : δ) (d1 : α) (d2 : β)
      (d3 : γ), i < l1.length → i < l2.length → i < l3.length →
      (zipWith3 f l1 l2 l3).getD i d = f (l1.getD i d1) (l2.getD i d2) (l3.getD i d3)
  | a :: as, b :: bs, c :: cs, 0, d, d1, d2, d3, _, _, _ => by simp [zipWith3]
  | a :: as, b :: bs, c :: cs, i + 1, d, d1, d2, d3, h1, h2, h3 => by
    simp only [zipWith3, List.getD_cons_succ]
    exact getD_zipWith3 f as bs cs i d d1 d2 d3 (by simpa using h1) (by simpa using h2)
      (by simpa using h3)
  | [], _, _, i, d, d1, d2, d3, h1, _, _ => by simp at h1
  | _ :: _, [], _, i, d, d1, d2, d3, _, h2, _ => by simp at h2
  | _ :: _, _ :: _, [], i, d, d1, d2, d3, _, _, h3 => by simp at h3

end ListHelpers

section Lengths

variable {K : Type} [LinearOrderedField K]
variable (ops : Ops K) (cfg : Config K) (st en : FullState K) (ia : K × K)
variable (states : List (Red K))

theorem length_currentPos :
    (currentPos ops cfg st en ia states).length = states.length - 2 + 6 := by
  simp [currentPos]

theorem length_currentVel :
    (currentVel ops cfg st en ia states).length = states.length - 2 + 6 := by
  simp [currentVel, length_currentPos]

theorem length_currentAccelCore :
    (currentAccelCore ops cfg st en ia states).length = states.length - 2 + 5 := by
  simp [currentAccelCore, length_currentVel]

theorem length_currentAccel :
    (currentAccel ops cfg st en ia states).length = states.length - 2 + 6 := by
  simp [currentAccel, length_currentAccelCore]

theorem length_accelMag :
    (accelMag ops cfg st en ia states).length = states.length - 2 + 6 := by
  simp [accelMag, length_currentAccel]

theorem length_zAxisBody :
    (zAxisBody ops cfg st en ia states).length = states.length - 2 + 2 := by
  simp [zAxisBody, length_currentAccel, length_accelMag]

theorem length_rotSeq :
    4 ≤ (rotSeq ops cfg st en ia states).length := by
  simp [rotSeq]

theorem length_omegaSeq :
    (omegaSeq ops cfg st en ia states).length = (rotSeq ops cfg st en ia states).length := by
  have h4 := length_rotSeq ops cfg st en ia states
  simp [omegaSeq, omegaCore]
  omega

theorem length_angAccelSeq :
    (angAccelSeq ops cfg st en ia states).length =
      (rotSeq ops cfg st en ia states).length := by
  have h4 := length_rotSeq ops cfg st en ia states
  simp [angAccelSeq, angAccelCore, length_omegaSeq]
  omega

theorem length_torquesSeq :
    (torquesSeq ops cfg st en ia states).length =
      (rotSeq ops cfg st en ia states).length := by
  simp [torquesSeq, length_angAccelSeq]

theorem length_actionsSeq :
    2 ≤ (actionsSeq ops cfg st en ia states).length := by
  have h4 := length_rotSeq ops cfg st en ia states
  simp [actionsSeq, length_accelMag, length_torquesSeq]
  omega

end Lengths

section AlgebraHelpers

variable {K : Type} [LinearOrderedField K]

theorem Mat3.mul_def (A B : Mat3 K) : A * B = Mat3.mul A B := rfl

theorem Mat3.one_def : (1 : Mat3 K) = ⟨1, 0, 0, 0, 1, 0, 0, 0, 1⟩ := rfl

theorem Mat3.one_mul_mat (A : Mat3 K) : (1 : Mat3 K) * A = A := by
  simp [Mat3.mul_def, Mat3.mul, Mat3.one_def]

theorem Mat3.isOrthonormal_one : (1 : Mat3 K).IsOrthonormal := by
  simp [Mat3.IsOrthonormal, Mat3.transpose, Mat3.mul_def, Mat3.mul, Mat3.one_def]

theorem Mat3.normSq_mulVec_e3 {A : Mat3 K} (h : A.IsOrthonormal) :
    (A.mulVec e3).normSq = 1 := by
  have h22 := congrArg Mat3.a22 h
  simp [Mat3.transpose, Mat3.mul_def, Mat3.mul, Mat3.one_def] at h22
  simp [Mat3.mulVec, e3, Vec3.normSq]
  nlinarith [h22]

theorem Vec3.normSq_smul (v : Vec3 K) (a : K) : (v.smul a).normSq = a ^ 2 * v.normSq := by
  simp [Vec3.smul, Vec3.normSq]
  ring

theorem Vec3.smul_zero_vec (a : K) : (0 : Vec3 K).smul a = 0 := by
  simp [Vec3.smul]

/-- The Rodrigues map sends the zero vector to the identity (for any
interpretation sending `sqrt 0` to `0`). -/
theorem vec_to_rot_matrix_zero_real : vec_to_rot_matrix realOps (0 : Vec3 ℝ) = 1 := by
  simp [vec_to_rot_matrix, Vec3.normSq, realOps]

/-- Integrating a zero angular velocity leaves the rotation unchanged. -/
theorem next_rotation_zero_omega_real (R : Mat3 ℝ) (dt : ℝ) :
    next_rotation realOps R 0 dt = R := by
  rw [next_rotation, Vec3.smul_zero_vec, vec_to_rot_matrix_zero_real, Mat3.one_mul_mat]

theorem meanK_map_const {α : Type} (l : List α) (c : K) (h : l ≠ []) :
    meanK (l.map fun _ => c) = c := by
  have hl : (l.length : K) ≠ 0 := by
    simpa using h
  simp [meanK, List.map_const]
  field_simp

theorem sigmoid_pos_real (x : ℝ) : 0 < sigmoid realOps x := by
  have := Real.exp_pos (-x)
  simp only [sigmoid, realOps]
  positivity

theorem sigmoid_neg_lt_half {s : ℝ} (hs : 0 < s) : sigmoid realOps (-s) < 1 / 2 := by
  have h1 : (1 : ℝ) < Real.exp s := by
    calc (1 : ℝ) = Real.exp 0 := Real.exp_zero.symm
    _ < Real.exp s := Real.exp_lt_exp.mpr hs
  have h2 : (0 : ℝ) < 1 + Real.exp s := by linarith
  simp only [sigmoid, realOps, neg_neg]
  rw [div_lt_div_iff₀ h2 (by norm_num)]
  linarith

theorem length_linspace01 (n : ℕ) : (linspace01 (K := K) n).length = n := by
  unfold linspace01
  rw [List.length_map, List.length_range]

theorem length_fadeMask (ops : Ops K) (s : K) (fe ep n : ℕ) :
    (fadeMask ops s fe ep n).length = n := by
  simp [fadeMask, length_linspace01]

end AlgebraHelpers

/-! ## Claim C2 -/

/-- Claim C2, counterexample: the claim asserts that a checkpoint write that
fails partway leaves the previously persisted checkpoint intact.  It is false
at the concrete prior checkpoint `7`: `save_progress` begins with
`os.remove(filename)`, so the state reached right after the first file
operation holds no checkpoint at all — the prior content `7` is already
destroyed before the new checkpoint is written. -/
theorem save_progress_counterexample :
    saveProgressAborted (some (7 : ℕ)) = some none ∧
      (none : FileState ℕ) ≠ some 7 := by
  exact ⟨rfl, by decide⟩

/-- Claim C2, amended: `save_progress` deletes the existing checkpoint file
before writing the new one; an interruption between the two operations leaves
no checkpoint on disk (the prior state is not preserved), a completed run
leaves exactly the new checkpoint, and when no checkpoint file exists the
initial `os.remove` itself raises. -/
theorem save_progress_removes_before_write {α : Type} (old new : α) :
    saveProgressAborted (some old) = some none ∧
      saveProgress (some old) new = some (some new) ∧
      saveProgress (none : FileState α) new = none :=
  ⟨rfl, rfl, rfl⟩

/-! ## Claim C4 -/

theorem popMin_mem : ∀ (t : List (Prio × Cell)) (h : Prio × Cell), popMin h t ∈ h :: t := by
  intro t
  induction t with
  | nil =>
    intro h
    simp [popMin]
  | cons x xs ih =>
    intro h
    rw [popMin, List.foldl_cons]
    have hm := ih (if nodeLt x h then x else h)
    rw [popMin] at hm
    rcases List.mem_cons.mp hm with h1 | h2
    · rw [h1]
      split
      · exact List.mem_cons_of_mem _ (List.mem_cons_self _ _)
      · exact List.mem_cons_self _ _
    · exact List.mem_cons_of_mem _ (List.mem_cons_of_mem _ h2)

/-- Expansion from a cell of the `x = 0` face of `planeGrid` only ever pushes
cells of the `x = 0` face: the `x = 1` plane is occupied and `x = -1` is out
of bounds. -/
theorem expand_x0 (goal cur : Cell)
    (acc : List (Prio × Cell) × List (Cell × Cell) × List (Cell × ℕ)) (d : Cell)
    (hc : cur.1 = 0) (hd : d.1 = 1 ∨ d.1 = -1 ∨ d.1 = 0)
    (hacc : ∀ n ∈ acc.1, n.2.1 = 0) :
    ∀ n ∈ (expand planeGrid goal cur acc d).1, n.2.1 = 0 := by
  obtain ⟨openL, cf, gs⟩ := acc
  rw [expand]
  dsimp only
  split
  · exact hacc
  · rename_i hbound
    split
    · exact hacc
    · rename_i hocc
      have hin : 0 ≤ cur.1 + d.1 ∧ cur.1 + d.1 < 3 := by
        simp [inboundsB, planeGrid] at hbound
        exact hbound.1.1.1.1
      have hne1 : ¬(cur.1 + d.1 = 1) := by
        simpa [planeGrid] using hocc
      have hx : cur.1 + d.1 = 0 := by omega
      split
      · intro n hn
        split at hn
        · exact hacc n hn
        · rcases List.mem_append.mp hn with hmem | hmem
          · exact hacc n hmem
          · have : n = ((((gs.lookup cur).getD 0 + 1 : ℕ),
                sqDist (cur.1 + d.1, cur.2.1 + d.2.1, cur.2.2 + d.2.2) goal),
                ((cur.1 + d.1, cur.2.1 + d.2.1, cur.2.2 + d.2.2) : Cell)) := by
              simpa using hmem
            rw [this]
            exact hx
      · exact hacc

/-- On `planeGrid`, starting from an open list whose cells all lie on the
`x = 0` face, the search never returns a path to the goal `(2, 1, 1)` — for
any fuel: the dividing plane keeps every reachable cell at `x = 0`. -/
theorem planeGrid_never_found :
    ∀ (fuel : ℕ) (openL : List (Prio × Cell)) (cs : List Cell)
      (cf : List (Cell × Cell)) (gs : List (Cell × ℕ)),
      (∀ n ∈ openL, n.2.1 = 0) →
      ∀ p, astarLoop planeGrid (2, 1, 1) fuel openL cs cf gs ≠ AResult.found p := by
  intro fuel
  induction fuel with
  | zero =>
    intro openL cs cf gs hinv p
    cases openL <;> simp [astarLoop]
  | succ fuel ih =>
    intro openL cs cf gs hinv p
    cases openL with
    | nil => simp [astarLoop]
    | cons h t =>
      have hcur : (popMin h t).2.1 = 0 := hinv _ (popMin_mem t h)
      have hne : ¬((popMin h t).2 = ((2 : ℤ), (1 : ℤ), (1 : ℤ))) := by
        intro he
        rw [he] at hcur
        norm_num at hcur
      simp only [astarLoop]
      rw [if_neg hne]
      apply ih
      have hdirs : ∀ d ∈ neighborDirs, d.1 = 1 ∨ d.1 = -1 ∨ d.1 = 0 := by decide
      have hrest : ∀ n ∈ (h :: t).erase (popMin h t), n.2.1 = 0 := fun n hn =>
        hinv n (List.mem_of_mem_erase hn)
      clear hinv hne
      generalize hr : (h :: t).erase (popMin h t) = rest at hrest
      revert hrest
      generalize (popMin h t).2 = c at hcur
      intro hrest
      have main : ∀ (dirs : List Cell), (∀ d ∈ dirs, d.1 = 1 ∨ d.1 = -1 ∨ d.1 = 0) →
          ∀ (acc : List (Prio × Cell) × List (Cell × Cell) × List (Cell × ℕ)),
          (∀ n ∈ acc.1, n.2.1 = 0) →
          ∀ n ∈ (dirs.foldl (expand planeGrid (2, 1, 1) c) acc).1, n.2.1 = 0 := by
        intro dirs
        induction dirs with
        | nil =>
          intro _ acc hacc
          exact hacc
        | cons d ds ihd =>
          intro hds acc hacc
          rw [List.foldl_cons]
          exact ihd (fun x hx => hds x (List.mem_cons_of_mem _ hx)) _
            (expand_x0 (2, 1, 1) c acc d hcur (hds d (List.mem_cons_self _ _)) hacc)
      exact main neighborDirs hdirs (rest, cf, gs) hrest

/-- Claim C4: whenever the A* open set empties before the goal is popped, the
search fails with the explicit `PathNotFound` outcome (`AResult.notFound`,
the `raise ValueError("Failed to find path!")` of the source) rather than
returning a path — for every grid, goal and intermediate search state; and in
particular the search between the two in-bounds corner cells `(0,0,0)` and
`(2,1,1)` of a 3×2×2 grid whose `x = 1` plane is fully occupied fails with
that outcome; moreover on that grid no step budget whatsoever ever yields a
path, since every reachable cell stays on the `x = 0` face. -/
theorem astar_pathnotfound :
    (∀ (g : Grid) (goal : Cell) (fuel : ℕ) (closeSet : List Cell)
        (cameFrom : List (Cell × Cell)) (gscore : List (Cell × ℕ)),
      astarLoop g goal fuel [] closeSet cameFrom gscore = AResult.notFound) ∧
      astar planeGrid (0, 0, 0) (2, 1, 1) 10 = AResult.notFound ∧
      ∀ (fuel : ℕ) (p : List Cell),
        astar planeGrid (0, 0, 0) (2, 1, 1) fuel ≠ AResult.found p := by
  refine ⟨?_, by decide, ?_⟩
  · intro g goal fuel closeSet cameFrom gscore
    cases fuel <;> rfl
  · intro fuel p
    exact planeGrid_never_found fuel _ _ _ _ (by decide) p

/-! ## Claim C1 -/

/-- Claim C1, amended: for every valid configuration (`steps ≥ 5`, interior
states of the invariant length `steps - 2`), the full position sequence
produced by `calc_everything` — boundary positions, propagated
boundary-adjacent positions and free `ReducedState` positions — has exactly
`steps + 2` entries (not `steps`): the slice `states[2:]` removes only two of
the interior rows while four propagated start-side positions and two end-side
positions are prepended and appended. -/
theorem calc_positions_length {K : Type} [LinearOrderedField K] (ops : Ops K)
    (cfg : Config K) (st en : FullState K) (ia : K × K) (states : List (Red K))
    (h5 : 5 ≤ cfg.steps) (hlen : states.length = cfg.steps - 2) :
    (calcEverything ops cfg st en ia states).pos.length = cfg.steps + 2 := by
  show (currentPos ops cfg st en ia states).length = cfg.steps + 2
  rw [length_currentPos, hlen]
  omega

/-- Claim C1, witness: a concrete configuration with `steps = 5` and three
interior reduced states yields a position sequence of length `5 + 2`. -/
theorem calc_positions_length_witness :
    (calcEverything trivOps (⟨2, 5, 500, 10⟩ : Config ℚ) ⟨0, 0, 1, 0⟩ ⟨0, 0, 1, 0⟩
      (10, 10) [⟨0, 0⟩, ⟨0, 0⟩, ⟨0, 0⟩]).pos.length = 5 + 2 :=
  calc_positions_length trivOps ⟨2, 5, 500, 10⟩ ⟨0, 0, 1, 0⟩ ⟨0, 0, 1, 0⟩ (10, 10)
    [⟨0, 0⟩, ⟨0, 0⟩, ⟨0, 0⟩] (by decide) (by decide)

/-- Claim C1, counterexample: the claim as stated (exactly `steps` entries) is
false at the concrete valid configuration with `steps = 5`: the position
sequence has `7` entries. -/
theorem calc_positions_length_counterexample :
    (calcEverything trivOps (⟨2, 5, 500, 10⟩ : Config ℚ) ⟨0, 0, 1, 0⟩ ⟨0, 0, 1, 0⟩
      (10, 10) [⟨0, 0⟩, ⟨0, 0⟩, ⟨0, 0⟩]).pos.length ≠
      (⟨2, 5, 500, 10⟩ : Config ℚ).steps := by
  decide

theorem getLastD_append_pair {α : Type} (l : List α) (a b d : α) :
    (l ++ [a, b]).getLastD d = b := by
  have h : l ++ [a, b] = (l ++ [a]) ++ [b] := by simp
  rw [h, getLastD_append_singleton]

/-! ## Claim C8 -/

/-- Claim C8: for every `start_state` and `end_state` (and any interior
states), the reconstructed trajectory's position and velocity at index 0
equal `start_state`'s position and velocity exactly, and the position and
velocity at the final index equal `end_state`'s position and velocity —
in exact arithmetic, for a valid configuration (`T_final ≠ 0`,
`steps ≠ 0`, so that `dt ≠ 0`). -/
theorem calc_boundary_conditions {K : Type} [LinearOrderedField K] (ops : Ops K)
    (cfg : Config K) (st en : FullState K) (ia : K × K) (states : List (Red K))
    (hT : cfg.Tfinal ≠ 0) (hs : cfg.steps ≠ 0) :
    (calcEverything ops cfg st en ia states).pos.getD 0 0 = st.pos ∧
      (calcEverything ops cfg st en ia states).vel.getD 0 0 = st.vel ∧
      (calcEverything ops cfg st en ia states).pos.getLastD 0 = en.pos ∧
      (calcEverything ops cfg st en ia states).vel.getLastD 0 = en.vel := by
  have hdt : dtv cfg ≠ 0 := div_ne_zero hT (Nat.cast_ne_zero.mpr hs)
  refine ⟨?_, ?_, ?_, ?_⟩
  · show (currentPos ops cfg st en ia states).getD 0 0 = st.pos
    simp [currentPos]
  · show (currentVel ops cfg st en ia states).getD 0 0 = st.vel
    simp [currentVel, currentPos, nextPos, Vec3.smul, Vec3.sdiv,
      mul_div_cancel_right₀, hdt]
  · show (currentPos ops cfg st en ia states).getLastD 0 = en.pos
    exact getLastD_append_pair _ _ _ _
  · show (currentVel ops cfg st en ia states).getLastD 0 = en.vel
    exact getLastD_append_singleton _ _ _

/-- Claim C8, witness: the boundary conditions hold at a concrete rational
system. -/
theorem calc_boundary_conditions_witness :
    (calcEverything trivOps (⟨2, 5, 500, 10⟩ : Config ℚ)
          ⟨⟨1, 2, 3⟩, ⟨4, 5, 6⟩, 1, 0⟩ ⟨⟨7, 8, 9⟩, ⟨1, 1, 1⟩, 1, 0⟩ (10, 10)
          [⟨0, 0⟩, ⟨0, 0⟩, ⟨0, 0⟩]).pos.getD 0 0 = ⟨1, 2, 3⟩ ∧
      (calcEverything trivOps (⟨2, 5, 500, 10⟩ : Config ℚ)
          ⟨⟨1, 2, 3⟩, ⟨4, 5, 6⟩, 1, 0⟩ ⟨⟨7, 8, 9⟩, ⟨1, 1, 1⟩, 1, 0⟩ (10, 10)
          [⟨0, 0⟩, ⟨0, 0⟩, ⟨0, 0⟩]).vel.getD 0 0 = ⟨4, 5, 6⟩ ∧
      (calcEverything trivOps (⟨2, 5, 500, 10⟩ : Config ℚ)
          ⟨⟨1, 2, 3⟩, ⟨4, 5, 6⟩, 1, 0⟩ ⟨⟨7, 8, 9⟩, ⟨1, 1, 1⟩, 1, 0⟩ (10, 10)
          [⟨0, 0⟩, ⟨0, 0⟩, ⟨0, 0⟩]).pos.getLastD 0 = ⟨7, 8, 9⟩ ∧
      (calcEverything trivOps (⟨2, 5, 500, 10⟩ : Config ℚ)
          ⟨⟨1, 2, 3⟩, ⟨4, 5, 6⟩, 1, 0⟩ ⟨⟨7, 8, 9⟩, ⟨1, 1, 1⟩, 1, 0⟩ (10, 10)
          [⟨0, 0⟩, ⟨0, 0⟩, ⟨0, 0⟩]).vel.getLastD 0 = ⟨1, 1, 1⟩ :=
  calc_boundary_conditions trivOps ⟨2, 5, 500, 10⟩
    ⟨⟨1, 2, 3⟩, ⟨4, 5, 6⟩, 1, 0⟩ ⟨⟨7, 8, 9⟩, ⟨1, 1, 1⟩, 1, 0⟩ (10, 10)
    [⟨0, 0⟩, ⟨0, 0⟩, ⟨0, 0⟩] (by norm_num) (by norm_num)

/-! ## Claim C9 -/

/-- Claim C9: the reconstructed trajectory (positions, velocities,
accelerations, rotations, angular velocities, angular accelerations and
actions) is independent of the position components of the first two
`ReducedState`s: if two interior-state lists agree on every heading angle and
on the positions from index 2 onward, `calc_everything` produces identical
output, for any boundary states and `InitialAccelParams`. -/
theorem calc_independent_of_first_two_positions {K : Type} [LinearOrderedField K]
    (ops : Ops K) (cfg : Config K) (st en : FullState K) (ia : K × K)
    (s1 s2 : List (Red K)) (hang : s1.map Red.ang = s2.map Red.ang)
    (hpos : (s1.drop 2).map Red.pos = (s2.drop 2).map Red.pos) :
    calcEverything ops cfg st en ia s1 = calcEverything ops cfg st en ia s2 := by
  simp only [calcEverything, currentPos, currentVel, currentAccelCore, currentAccel,
    accelMag, zAxisBody, zAngle, inPlane, xAxisBody, yAxisBody, interiorRot, rotSeq,
    omegaCore, omegaSeq, angAccelCore, angAccelSeq, torquesSeq, actionsSeq]
  rw [hang, hpos]

/-- Claim C9, witness: two concrete interior-state lists that differ
arbitrarily in the positions of rows 0 and 1 but agree on all angles and on
row 2 yield identical trajectories. -/
theorem calc_independent_of_first_two_positions_witness :
    calcEverything trivOps (⟨2, 5, 500, 10⟩ : Config ℚ) ⟨0, 0, 1, 0⟩ ⟨0, 0, 1, 0⟩
        (10, 10) [⟨⟨1, 2, 3⟩, 0⟩, ⟨⟨4, 5, 6⟩, 7⟩, ⟨⟨7, 8, 9⟩, 1⟩] =
      calcEverything trivOps (⟨2, 5, 500, 10⟩ : Config ℚ) ⟨0, 0, 1, 0⟩ ⟨0, 0, 1, 0⟩
        (10, 10) [⟨⟨0, 0, 0⟩, 0⟩, ⟨⟨9, 9, 9⟩, 7⟩, ⟨⟨7, 8, 9⟩, 1⟩] :=
  calc_independent_of_first_two_positions trivOps ⟨2, 5, 500, 10⟩ ⟨0, 0, 1, 0⟩
    ⟨0, 0, 1, 0⟩ (10, 10) [⟨⟨1, 2, 3⟩, 0⟩, ⟨⟨4, 5, 6⟩, 7⟩, ⟨⟨7, 8, 9⟩, 1⟩]
    [⟨⟨0, 0, 0⟩, 0⟩, ⟨⟨9, 9, 9⟩, 7⟩, ⟨⟨7, 8, 9⟩, 1⟩] (by decide) (by decide)

/-! ## Exact singular-point facts about the rotation maps (context for C7) -/

/-- At the identity matrix the logarithm map returns exactly the zero vector:
the guarded arccosine evaluates to exactly zero at `(trace - 1)/2 = 1` and
the zero-angle branch overrides the division by zero. -/
theorem rot_matrix_to_vec_identity_real :
    rot_matrix_to_vec realOps (1 : Mat3 ℝ) = 0 := by
  have hangle : acos_safe realOps (((1 : Mat3 ℝ).trace - 1) / 2) = 0 := by
    have h1 : (((1 : Mat3 ℝ).trace - 1) / 2) = 1 := by
      show (((1 : ℝ) + 1 + 1 - 1) / 2) = 1
      norm_num
    rw [h1]
    rw [acos_safe]
    have hcond : ¬(|(1 : ℝ)| ≤ 1 - 1 / 10000) := by
      rw [abs_one]; norm_num
    rw [if_neg hcond]
    have hsgn : sgn (1 : ℝ) = 1 := by norm_num [sgn]
    rw [hsgn, abs_one, one_mul]
    ring_nf
  rw [rot_matrix_to_vec]
  simp only [hangle, if_pos]
  simp [Vec3.smul]

/-! ## Claim C6 -/

theorem fadeMask_getD {K : Type} [LinearOrderedField K] (ops : Ops K) (s : K)
    (fe ep n i : ℕ) (hi : i < n) :
    (fadeMask ops s fe ep n).getD i 0 =
      sigmoid ops (s * ((ep : K) / (fe : K) - (i : K) / ((n : K) - 1))) := by
  rw [fadeMask, getD_map _ _ _ _ 0 (by rw [length_linspace01]; exact hi)]
  congr 2
  rw [linspace01, getD_map _ _ _ _ 0 (by rw [List.length_range]; exact hi)]
  congr 1
  simp [List.getD_eq_getElem?_getD, List.getElem?_range, hi]

/-- Claim C6, counterexample: the claim asserts that the fade-in multiplier is
exactly 0 at `epoch = 0` for the last trajectory step; at the concrete
configuration `fade_out_sharpness = 10`, `fade_out_epoch = 500` and a
22-entry cost row (the `steps = 20` configuration of `main`), the
multiplier of the last step at epoch 0 is `sigmoid(-10) = 1/(1 + e^10) > 0`,
not 0 — a sigmoid never reaches 0. -/
theorem fade_mask_counterexample :
    (fadeMask realOps (10 : ℝ) 500 0 22).getD 21 0 ≠ 0 := by
  rw [fadeMask_getD realOps 10 500 0 22 21 (by norm_num)]
  exact (sigmoid_pos_real _).ne'

/-- Claim C6, amended: for every configuration with `fade_out_epoch > 0` and
`fade_out_sharpness > 0`, the fade-in multiplier applied to the collision
cost equals `sigmoid(-sharpness)` at `epoch = 0` for the last trajectory
step — a value strictly between 0 and 1/2, approaching 0 only as the
sharpness grows, never exactly 0 — and for every step the collision cost is
left exactly unscaled (multiplier 1) once `epoch` reaches `fade_out_epoch`,
because the masking branch is skipped. -/
theorem fade_mask_amended (s : ℝ) (fe n : ℕ) (hs : 0 < s) (hfe : 0 < fe)
    (hn : 2 ≤ n) :
    (fadeMask realOps s fe 0 n).getD (n - 1) 0 = sigmoid realOps (-s) ∧
      0 < sigmoid realOps (-s) ∧ sigmoid realOps (-s) < 1 / 2 ∧
      ∀ (epoch : ℕ) (cp : List ℝ), fe ≤ epoch →
        applyFade realOps s fe epoch cp = cp := by
  have hn1 : ((n : ℝ) - 1) ≠ 0 := by
    have h2 : (2 : ℝ) ≤ (n : ℝ) := by exact_mod_cast hn
    linarith
  refine ⟨?_, sigmoid_pos_real _, sigmoid_neg_lt_half hs, ?_⟩
  · rw [fadeMask_getD realOps s fe 0 n (n - 1) (by omega)]
    congr 1
    have hcast : (((n : ℕ) - 1 : ℕ) : ℝ) = (n : ℝ) - 1 := by
      have h1 : 1 ≤ n := by omega
      push_cast [h1]
      ring
    rw [hcast, div_self hn1]
    norm_num
  · intro epoch cp h
    rw [applyFade, if_neg (not_lt.mpr h)]

/-- Claim C6, witness: the amended statement at the concrete configuration of
`main` (`sharpness = 10`, `fade_out_epoch = 500`, 22 trajectory entries). -/
theorem fade_mask_amended_witness :
    (fadeMask realOps (10 : ℝ) 500 0 22).getD 21 0 = sigmoid realOps (-10) ∧
      0 < sigmoid realOps (-(10 : ℝ)) ∧ sigmoid realOps (-(10 : ℝ)) < 1 / 2 ∧
      ∀ (epoch : ℕ) (cp : List ℝ), 500 ≤ epoch →
        applyFade realOps 10 500 epoch cp = cp :=
  fade_mask_amended 10 500 22 (by norm_num) (by norm_num) (by norm_num)

/-! ## Claim C5 -/

theorem length_applyFade {K : Type} [LinearOrderedField K] (ops : Ops K) (s : K)
    (fe ep : ℕ) (cp : List K) : (applyFade ops s fe ep cp).length = cp.length := by
  rw [applyFade]
  split
  · rw [List.length_zipWith, length_fadeMask]
    omega
  · rfl

theorem length_colisionMerge {K : Type} [LinearOrderedField K] (ops : Ops K)
    (cfg : Config K) (st en : FullState K) (ia : K × K) (states : List (Red K))
    (nerf : Vec3 K → K) :
    (colisionMerge ops cfg st en ia states nerf).length =
      (actionsSeq ops cfg st en ia states).length := by
  simp only [colisionMerge, densitySq, bodyToWorld, distanceMerge, actionsSeq,
    List.length_zipWith, List.length_map, length_currentVel, length_currentPos,
    length_accelMag, length_torquesSeq]
  omega

/-- Claim C5: the per-step cost returned by `get_state_cost` is
`1000 * thrust^2 + (1/100) * |torque|^4` plus the (faded) collision term
scaled by `10^6`, where `|torque|` is the Euclidean norm of the torque
vector; the torque penalty is exactly the fourth power of that norm, i.e.
the square of the sum of squared torque components.  The weights `1000` and
`1/100` are fixed and positive. -/
theorem state_cost_formula (cfg : Config ℝ) (st en : FullState ℝ) (ia : ℝ × ℝ)
    (states : List (Red ℝ)) (nerf : Vec3 ℝ → ℝ) (epoch : ℕ) (i : ℕ)
    (hi : i < (actionsSeq realOps cfg st en ia states).length) :
    (stateCost realOps cfg st en ia states nerf epoch).getD i 0 =
      1000 * ((actionsSeq realOps cfg st en ia states).getD i default).thrust ^ 2 +
        (1 / 100) *
          Real.sqrt ((actionsSeq realOps cfg st en ia states).getD i
            default).torque.normSq ^ 4 +
        (applyFade realOps cfg.fadeOutSharpness cfg.fadeOutEpoch epoch
            (colisionMerge realOps cfg st en ia states nerf)).getD i 0 * 1000000 ∧
      Real.sqrt ((actionsSeq realOps cfg st en ia states).getD i
          default).torque.normSq ^ 4 =
        ((actionsSeq realOps cfg st en ia states).getD i default).torque.normSq ^ 2 := by
  have hcp : i < (applyFade realOps cfg.fadeOutSharpness cfg.fadeOutEpoch epoch
      (colisionMerge realOps cfg st en ia states nerf)).length := by
    rw [length_applyFade, length_colisionMerge]
    exact hi
  constructor
  · simp only [stateCost]
    rw [getD_zipWith3 _ _ _ _ i 0 0 0 0 (by rw [List.length_map]; exact hi)
      (by rw [List.length_map]; exact hi) hcp]
    rw [getD_map Act.thrust _ i 0 default hi, getD_map _ _ i 0 default hi]
    simp [realOps]
  · have h0 : 0 ≤ ((actionsSeq realOps cfg st en ia states).getD i
        default).torque.normSq := by
      rw [Vec3.normSq]
      positivity
    rw [show (4 : ℕ) = 2 * 2 from rfl, pow_mul, Real.sq_sqrt h0]

/-- Claim C5, witness: the formula at step 0 of a concrete system. -/
theorem state_cost_formula_witness :
    0 < (actionsSeq realOps (⟨2, 5, 500, 10⟩ : Config ℝ) ⟨0, 0, 1, 0⟩ ⟨0, 0, 1, 0⟩
        (10, 10) []).length ∧
      ((stateCost realOps (⟨2, 5, 500, 10⟩ : Config ℝ) ⟨0, 0, 1, 0⟩ ⟨0, 0, 1, 0⟩
            (10, 10) [] (fun _ => 0) 0).getD 0 0 =
          1000 * ((actionsSeq realOps (⟨2, 5, 500, 10⟩ : Config ℝ) ⟨0, 0, 1, 0⟩
              ⟨0, 0, 1, 0⟩ (10, 10) []).getD 0 default).thrust ^ 2 +
            (1 / 100) *
              Real.sqrt ((actionsSeq realOps (⟨2, 5, 500, 10⟩ : Config ℝ) ⟨0, 0, 1, 0⟩
                ⟨0, 0, 1, 0⟩ (10, 10) []).getD 0 default).torque.normSq ^ 4 +
            (applyFade realOps (10 : ℝ) 500 0
                (colisionMerge realOps (⟨2, 5, 500, 10⟩ : Config ℝ) ⟨0, 0, 1, 0⟩
                  ⟨0, 0, 1, 0⟩ (10, 10) [] (fun _ => 0))).getD 0 0 * 1000000 ∧
          Real.sqrt ((actionsSeq realOps (⟨2, 5, 500, 10⟩ : Config ℝ) ⟨0, 0, 1, 0⟩
              ⟨0, 0, 1, 0⟩ (10, 10) []).getD 0 default).torque.normSq ^ 4 =
            ((actionsSeq realOps (⟨2, 5, 500, 10⟩ : Config ℝ) ⟨0, 0, 1, 0⟩
              ⟨0, 0, 1, 0⟩ (10, 10) []).getD 0 default).torque.normSq ^ 2) := by
  have hlen : 0 < (actionsSeq realOps (⟨2, 5, 500, 10⟩ : Config ℝ) ⟨0, 0, 1, 0⟩
      ⟨0, 0, 1, 0⟩ (10, 10) []).length :=
    Nat.lt_of_lt_of_le (by norm_num)
      (length_actionsSeq realOps ⟨2, 5, 500, 10⟩ ⟨0, 0, 1, 0⟩ ⟨0, 0, 1, 0⟩ (10, 10) [])
  exact ⟨hlen, state_cost_formula ⟨2, 5, 500, 10⟩ ⟨0, 0, 1, 0⟩ ⟨0, 0, 1, 0⟩ (10, 10)
    [] (fun _ => 0) 0 0 hlen⟩

/-! ## Claim C3 -/

theorem length_linspaceAB {K : Type} [LinearOrderedField K] (a b : K) (n : ℕ) :
    (linspaceAB a b n).length = n := by
  rw [linspaceAB, List.length_map, List.length_range]

theorem length_flatMap_const {α β : Type} (l : List α) (f : α → List β) (n : ℕ)
    (h : ∀ x, (f x).length = n) : (l.flatMap f).length = l.length * n := by
  rw [List.length_flatMap]
  have hc : (List.length ∘ f) = fun _ => n := by
    funext x
    simp [Function.comp, h]
  rw [hc]
  simp [List.map_const', List.sum_replicate, smul_eq_mul]

theorem length_robotBody {K : Type} [LinearOrderedField K] :
    (robotBody (K := K)).length = 500 := by
  rw [robotBody, length_flatMap_const _ _ 50, length_linspaceAB]
  intro x
  rw [length_flatMap_const _ _ 5, length_linspaceAB]
  intro y
  rw [List.length_map, length_linspaceAB]

theorem robotBody_ne_nil {K : Type} [LinearOrderedField K] :
    (robotBody (K := K)) ≠ [] := by
  have h := length_robotBody (K := K)
  intro hc
  rw [hc] at h
  simp at h

theorem length_rotSeq_eq {K : Type} [LinearOrderedField K] (ops : Ops K)
    (cfg : Config K) (st en : FullState K) (ia : K × K) (states : List (Red K))
    (h : 2 ≤ states.length) :
    (rotSeq ops cfg st en ia states).length = states.length + 4 := by
  have hz := length_zAxisBody ops cfg st en ia states
  simp only [rotSeq, interiorRot, length_zipWith3, xAxisBody, yAxisBody, inPlane,
    zAngle, List.length_zipWith, List.length_map, List.length_append,
    List.length_cons, hz]
  simp
  omega

theorem length_colisionHead {K : Type} [LinearOrderedField K] (ops : Ops K)
    (cfg : Config K) (st en : FullState K) (ia : K × K) (states : List (Red K))
    (nerf : Vec3 K → K) (h : 2 ≤ states.length) :
    (colisionHead ops cfg st en ia states nerf).length = states.length + 3 := by
  have hr := length_rotSeq_eq ops cfg st en ia states h
  simp only [colisionHead, densitySq, bodyToWorld, distanceHead,
    List.length_zipWith, List.length_drop, List.length_map, length_currentPos, hr]
  omega

/-- Index formula for the HEAD-branch collision cost: entry `i` is the mean
over body points of the squared density at step `i + 1` times the
epsilon-regularized length `sqrt(|Δp|² + 3·10⁻⁵)` of the `i`-th inter-step
position delta. -/
theorem colisionHead_getD {K : Type} [LinearOrderedField K] (ops : Ops K)
    (cfg : Config K) (st en : FullState K) (ia : K × K) (states : List (Red K))
    (nerf : Vec3 K → K) (i : ℕ)
    (hi : i < (colisionHead ops cfg st en ia states nerf).length) :
    (colisionHead ops cfg st en ia states nerf).getD i 0 =
      meanK ((densitySq ops cfg st en ia states nerf).getD (i + 1) []) *
        ops.sqrt (((currentPos ops cfg st en ia states).getD (i + 1) 0 -
          (currentPos ops cfg st en ia states).getD i 0).normSq + 3 * eps5) := by
  rw [colisionHead, List.length_zipWith, lt_min_iff] at hi
  obtain ⟨h1, h2⟩ := hi
  have h3 : i < ((currentPos ops cfg st en ia states).drop 1).length := by
    rw [distanceHead, List.length_zipWith, lt_min_iff] at h2
    exact h2.1
  have h4 : i < (currentPos ops cfg st en ia states).length := by
    rw [distanceHead, List.length_zipWith, lt_min_iff] at h2
    exact h2.2
  rw [colisionHead, getD_zipWith _ _ _ i 0 [] 0 h1 h2]
  rw [getD_drop, Nat.add_comm 1 i]
  congr 1
  rw [distanceHead, getD_zipWith _ _ _ i 0 0 0 h3 h4]
  rw [getD_drop, Nat.add_comm 1 i]
  congr 1
  rw [Vec3.sub_def, Vec3.normSq, eps5]
  ring

/-- Claim C3, amended: the per-step HEAD-branch collision cost equals the
mean over body points of the squared density (at the later step of the pair)
multiplied by `sqrt(|Δp|² + 3·10⁻⁵)`, the epsilon-regularized — not exact —
Euclidean length of the inter-step position delta (the code adds `1e-5` to
each squared component before the square root), with the position-delta
convention rather than the instantaneous velocity magnitude; the parallel
merge-branch variant uses the epsilon-regularized velocity norm instead. -/
theorem colision_head_formula {K : Type} [LinearOrderedField K] (ops : Ops K)
    (cfg : Config K) (st en : FullState K) (ia : K × K) (states : List (Red K))
    (nerf : Vec3 K → K) (i : ℕ)
    (hi : i < (colisionHead ops cfg st en ia states nerf).length) :
    (colisionHead ops cfg st en ia states nerf).getD i 0 =
      meanK ((densitySq ops cfg st en ia states nerf).getD (i + 1) []) *
        ops.sqrt (((currentPos ops cfg st en ia states).getD (i + 1) 0 -
          (currentPos ops cfg st en ia states).getD i 0).normSq + 3 * eps5) :=
  colisionHead_getD ops cfg st en ia states nerf i hi

/-- Claim C3, witness: the amended formula at step 0 of a concrete rational
system. -/
theorem colision_head_formula_witness :
    0 < (colisionHead trivOps (⟨2, 5, 500, 10⟩ : Config ℚ) ⟨0, 0, 1, 0⟩ ⟨0, 0, 1, 0⟩
        (10, 10) [⟨0, 0⟩, ⟨0, 0⟩, ⟨0, 0⟩] (fun _ => 1)).length ∧
      (colisionHead trivOps (⟨2, 5, 500, 10⟩ : Config ℚ) ⟨0, 0, 1, 0⟩ ⟨0, 0, 1, 0⟩
          (10, 10) [⟨0, 0⟩, ⟨0, 0⟩, ⟨0, 0⟩] (fun _ => 1)).getD 0 0 =
        meanK ((densitySq trivOps (⟨2, 5, 500, 10⟩ : Config ℚ) ⟨0, 0, 1, 0⟩
            ⟨0, 0, 1, 0⟩ (10, 10) [⟨0, 0⟩, ⟨0, 0⟩, ⟨0, 0⟩] (fun _ => 1)).getD 1 []) *
          trivOps.sqrt (((currentPos trivOps (⟨2, 5, 500, 10⟩ : Config ℚ) ⟨0, 0, 1, 0⟩
              ⟨0, 0, 1, 0⟩ (10, 10) [⟨0, 0⟩, ⟨0, 0⟩, ⟨0, 0⟩]).getD 1 0 -
            (currentPos trivOps (⟨2, 5, 500, 10⟩ : Config ℚ) ⟨0, 0, 1, 0⟩ ⟨0, 0, 1, 0⟩
              (10, 10) [⟨0, 0⟩, ⟨0, 0⟩, ⟨0, 0⟩]).getD 0 0).normSq + 3 * eps5) := by
  have hlen : 0 < (colisionHead trivOps (⟨2, 5, 500, 10⟩ : Config ℚ) ⟨0, 0, 1, 0⟩
      ⟨0, 0, 1, 0⟩ (10, 10) [⟨0, 0⟩, ⟨0, 0⟩, ⟨0, 0⟩] (fun _ => 1)).length := by
    rw [length_colisionHead trivOps ⟨2, 5, 500, 10⟩ ⟨0, 0, 1, 0⟩ ⟨0, 0, 1, 0⟩ (10, 10)
      [⟨0, 0⟩, ⟨0, 0⟩, ⟨0, 0⟩] (fun _ => 1) (by decide)]
    norm_num
  exact ⟨hlen, colision_head_formula trivOps ⟨2, 5, 500, 10⟩ ⟨0, 0, 1, 0⟩ ⟨0, 0, 1, 0⟩
    (10, 10) [⟨0, 0⟩, ⟨0, 0⟩, ⟨0, 0⟩] (fun _ => 1) 0 hlen⟩

/-- Claim C3, counterexample: the claim as stated — per-step collision cost
equals the mean of the squared density times the exact Euclidean norm of the
inter-step position delta — is false at a concrete stationary system with a
constant density field of 1: the position delta of step 0 is the zero vector,
so the claimed cost is `1 * sqrt 0 = 0`, but the code's cost is
`1 * sqrt(3e-5) > 0` because `1e-5` is added to each squared component of the
delta before the square root. -/
theorem colision_head_counterexample :
    (colisionHead realOps (⟨2, 5, 500, 10⟩ : Config ℝ) ⟨0, 0, 1, 0⟩ ⟨0, 0, 1, 0⟩
        (10, 10) [⟨0, 0⟩, ⟨0, 0⟩, ⟨0, 0⟩] (fun _ => 1)).getD 0 0 ≠
      colisionSpecC3 realOps (⟨2, 5, 500, 10⟩ : Config ℝ) ⟨0, 0, 1, 0⟩ ⟨0, 0, 1, 0⟩
        (10, 10) [⟨0, 0⟩, ⟨0, 0⟩, ⟨0, 0⟩] (fun _ => 1) 0 := by
  have hst : (2 : ℕ) ≤ ([⟨0, 0⟩, ⟨0, 0⟩, ⟨0, 0⟩] : List (Red ℝ)).length := by
    norm_num
  have hlen : 0 < (colisionHead realOps (⟨2, 5, 500, 10⟩ : Config ℝ) ⟨0, 0, 1, 0⟩
      ⟨0, 0, 1, 0⟩ (10, 10) [⟨0, 0⟩, ⟨0, 0⟩, ⟨0, 0⟩] (fun _ => 1)).length := by
    rw [length_colisionHead realOps ⟨2, 5, 500, 10⟩ ⟨0, 0, 1, 0⟩ ⟨0, 0, 1, 0⟩ (10, 10)
      [⟨0, 0⟩, ⟨0, 0⟩, ⟨0, 0⟩] (fun _ => 1) hst]
    norm_num
  rw [colisionHead_getD realOps ⟨2, 5, 500, 10⟩ ⟨0, 0, 1, 0⟩ ⟨0, 0, 1, 0⟩ (10, 10)
    [⟨0, 0⟩, ⟨0, 0⟩, ⟨0, 0⟩] (fun _ => 1) 0 hlen, colisionSpecC3]
  have hb : 1 < (bodyToWorld realOps (⟨2, 5, 500, 10⟩ : Config ℝ) ⟨0, 0, 1, 0⟩
      ⟨0, 0, 1, 0⟩ (10, 10) [⟨0, 0⟩, ⟨0, 0⟩, ⟨0, 0⟩] robotBody).length := by
    rw [bodyToWorld, List.length_zipWith,
      length_rotSeq_eq realOps ⟨2, 5, 500, 10⟩ ⟨0, 0, 1, 0⟩ ⟨0, 0, 1, 0⟩ (10, 10)
        [⟨0, 0⟩, ⟨0, 0⟩, ⟨0, 0⟩] hst, length_currentPos]
    norm_num
  have hrot : 1 < (rotSeq realOps (⟨2, 5, 500, 10⟩ : Config ℝ) ⟨0, 0, 1, 0⟩
      ⟨0, 0, 1, 0⟩ (10, 10) [⟨0, 0⟩, ⟨0, 0⟩, ⟨0, 0⟩]).length := by
    rw [length_rotSeq_eq realOps ⟨2, 5, 500, 10⟩ ⟨0, 0, 1, 0⟩ ⟨0, 0, 1, 0⟩ (10, 10)
      [⟨0, 0⟩, ⟨0, 0⟩, ⟨0, 0⟩] hst]
    norm_num
  have hpos : 1 < (currentPos realOps (⟨2, 5, 500, 10⟩ : Config ℝ) ⟨0, 0, 1, 0⟩
      ⟨0, 0, 1, 0⟩ (10, 10) [⟨0, 0⟩, ⟨0, 0⟩, ⟨0, 0⟩]).length := by
    rw [length_currentPos]
    norm_num
  have hM : meanK ((densitySq realOps (⟨2, 5, 500, 10⟩ : Config ℝ) ⟨0, 0, 1, 0⟩
      ⟨0, 0, 1, 0⟩ (10, 10) [⟨0, 0⟩, ⟨0, 0⟩, ⟨0, 0⟩] (fun _ => 1)).getD 1 []) = 1 := by
    rw [densitySq, getD_map _ _ 1 [] [] hb]
    rw [bodyToWorld, getD_zipWith _ _ _ 1 [] 1 0 hrot hpos]
    rw [List.map_map]
    have hcomp : ((fun p : Vec3 ℝ => ((fun _ : Vec3 ℝ => (1 : ℝ)) p) ^ 2) ∘
        (fun q : Vec3 ℝ =>
          ((rotSeq realOps (⟨2, 5, 500, 10⟩ : Config ℝ) ⟨0, 0, 1, 0⟩ ⟨0, 0, 1, 0⟩
            (10, 10) [⟨0, 0⟩, ⟨0, 0⟩, ⟨0, 0⟩]).getD 1 1).mulVec q +
            (currentPos realOps (⟨2, 5, 500, 10⟩ : Config ℝ) ⟨0, 0, 1, 0⟩ ⟨0, 0, 1, 0⟩
              (10, 10) [⟨0, 0⟩, ⟨0, 0⟩, ⟨0, 0⟩]).getD 1 0)) = fun _ => (1 : ℝ) := by
      funext q
      simp
    rw [hcomp, meanK_map_const _ _ robotBody_ne_nil]
  have hd : (currentPos realOps (⟨2, 5, 500, 10⟩ : Config ℝ) ⟨0, 0, 1, 0⟩ ⟨0, 0, 1, 0⟩
      (10, 10) [⟨0, 0⟩, ⟨0, 0⟩, ⟨0, 0⟩]).getD 1 0 -
      (currentPos realOps (⟨2, 5, 500, 10⟩ : Config ℝ) ⟨0, 0, 1, 0⟩ ⟨0, 0, 1, 0⟩
        (10, 10) [⟨0, 0⟩, ⟨0, 0⟩, ⟨0, 0⟩]).getD 0 0 = 0 := by
    simp [currentPos, nextPos, Vec3.smul]
  rw [hM, hd]
  have hz : (0 : Vec3 ℝ).normSq = 0 := by simp [Vec3.normSq]
  rw [hz]
  simp only [realOps, one_mul, zero_add, Real.sqrt_zero]
  have hpos3 : (0 : ℝ) < Real.sqrt (3 * eps5) :=
    Real.sqrt_pos.mpr (by rw [eps5]; norm_num)
  exact hpos3.ne'

/-! ## Claim C10 -/

section PipelineIndex

variable {K : Type} [LinearOrderedField K]
variable (ops : Ops K) (cfg : Config K) (st en : FullState K) (ia : K × K)
variable (states : List (Red K))

theorem currentPos_getD_zero :
    (currentPos ops cfg st en ia states).getD 0 0 = st.pos := by
  simp [currentPos]

theorem currentPos_getD_one :
    (currentPos ops cfg st en ia states).getD 1 0 = nextPos cfg st := by
  simp [currentPos]

theorem currentPos_getD_two :
    (currentPos ops cfg st en ia states).getD 2 0 = afterNextPos cfg st ia := by
  simp [currentPos]

theorem currentPos_getD_three :
    (currentPos ops cfg st en ia states).getD 3 0 = after2NextPos ops cfg st ia := by
  simp [currentPos]

theorem currentVel_getD (j : ℕ)
    (hj : j + 1 < (currentPos ops cfg st en ia states).length) :
    (currentVel ops cfg st en ia states).getD j 0 =
      ((currentPos ops cfg st en ia states).getD (j + 1) 0 -
        (currentPos ops cfg st en ia states).getD j 0).sdiv (dtv cfg) := by
  have hz : j < (List.zipWith (fun n p => (n - p).sdiv (dtv cfg))
      ((currentPos ops cfg st en ia states).drop 1)
      (currentPos ops cfg st en ia states)).length := by
    rw [List.length_zipWith, List.length_drop]
    omega
  rw [currentVel, getD_append_left _ _ j 0 hz,
    getD_zipWith _ _ _ j 0 0 0 (by rw [List.length_drop]; omega) (by omega),
    getD_drop, Nat.add_comm 1 j]

theorem currentAccel_getD (j : ℕ)
    (hj : j + 2 < (currentPos ops cfg st en ia states).length) :
    (currentAccel ops cfg st en ia states).getD j 0 =
      ((currentVel ops cfg st en ia states).getD (j + 1) 0 -
        (currentVel ops cfg st en ia states).getD j 0).sdiv (dtv cfg) - gvec := by
  have hv : (currentVel ops cfg st en ia states).length =
      (currentPos ops cfg st en ia states).length := by
    rw [length_currentVel, length_currentPos]
  have hz : j < (currentAccelCore ops cfg st en ia states).length := by
    rw [currentAccelCore, List.length_zipWith, List.length_drop, hv]
    omega
  rw [currentAccel, getD_append_left _ _ j 0 hz, currentAccelCore,
    getD_zipWith _ _ _ j 0 0 0 (by rw [List.length_drop, hv]; omega)
      (by rw [hv]; omega),
    getD_drop, Nat.add_comm 1 j]

theorem actionsSeq_getD_thrust (k : ℕ)
    (hk : k < (currentPos ops cfg st en ia states).length)
    (hk2 : k < (rotSeq ops cfg st en ia states).length) :
    ((actionsSeq ops cfg st en ia states).getD k default).thrust =
      ops.sqrt (((currentAccel ops cfg st en ia states).getD k 0).normSq) := by
  have ha : k < (accelMag ops cfg st en ia states).length := by
    rw [length_accelMag, ← length_currentPos ops cfg st en ia states]
    exact hk
  have ht : k < (torquesSeq ops cfg st en ia states).length := by
    rw [length_torquesSeq]
    exact hk2
  rw [actionsSeq, getD_zipWith _ _ _ k default 0 0 ha ht]
  show (accelMag ops cfg st en ia states).getD k 0 * massK = _
  rw [massK, mul_one, accelMag,
    getD_map _ _ k 0 0 (by
      rw [length_currentAccel, ← length_currentPos ops cfg st en ia states]
      exact hk)]

theorem calcEverything_actions :
    (calcEverything ops cfg st en ia states).actions =
      actionsSeq ops cfg st en ia states := by
  simp only [calcEverything]

end PipelineIndex

/-- Claim C10: assuming the start rotation is orthonormal, the propagated
rotation `next_R = next_rotation(start_R, start_omega, dt)` is orthonormal,
and both `InitialAccelParams` entries are non-negative, the thrust magnitudes
of the first two entries of the reconstructed action sequence equal the two
`InitialAccelParams` entries exactly, in exact arithmetic: the
boundary-adjacent accelerations round-trip through the finite-difference
reconstruction (for a valid configuration, `T_final ≠ 0` and `steps ≠ 0`). -/
theorem initial_accel_roundtrip (cfg : Config ℝ) (st en : FullState ℝ)
    (ia : ℝ × ℝ) (states : List (Red ℝ)) (hT : cfg.Tfinal ≠ 0)
    (hs : cfg.steps ≠ 0) (hR : st.rot.IsOrthonormal)
    (hN : (nextR realOps cfg st).IsOrthonormal) (h1 : 0 ≤ ia.1) (h2 : 0 ≤ ia.2) :
    ((calcEverything realOps cfg st en ia states).actions.getD 0 default).thrust =
        ia.1 ∧
      ((calcEverything realOps cfg st en ia states).actions.getD 1 default).thrust =
        ia.2 := by
  have hdt : dtv cfg ≠ 0 := div_ne_zero hT (Nat.cast_ne_zero.mpr hs)
  have hP : 6 ≤ (currentPos realOps cfg st en ia states).length := by
    rw [length_currentPos]
    omega
  have hr4 := length_rotSeq realOps cfg st en ia states
  have key0 : (currentAccel realOps cfg st en ia states).getD 0 0 =
      (st.rot.mulVec e3).smul ia.1 := by
    rw [currentAccel_getD realOps cfg st en ia states 0 (by omega),
      currentVel_getD realOps cfg st en ia states 1 (by omega),
      currentVel_getD realOps cfg st en ia states 0 (by omega),
      currentPos_getD_zero, currentPos_getD_one, currentPos_getD_two]
    simp only [afterNextPos, nextPos, nextVel, startAccel, gvec, e3, Vec3.smul,
      Vec3.sdiv, Vec3.add_def, Vec3.sub_def, Mat3.mulVec, Vec3.mk.injEq]
    refine ⟨?_, ?_, ?_⟩ <;> field_simp
  have key1 : (currentAccel realOps cfg st en ia states).getD 1 0 =
      ((nextR realOps cfg st).mulVec e3).smul ia.2 := by
    rw [currentAccel_getD realOps cfg st en ia states 1 (by omega),
      currentVel_getD realOps cfg st en ia states 2 (by omega),
      currentVel_getD realOps cfg st en ia states 1 (by omega),
      currentPos_getD_one, currentPos_getD_two, currentPos_getD_three]
    simp only [after2NextPos, afterNextPos, afterNextVel, nextVel, nextAccel,
      nextPos, startAccel, gvec, e3, Vec3.smul, Vec3.sdiv, Vec3.add_def,
      Vec3.sub_def, Mat3.mulVec, Vec3.mk.injEq]
    refine ⟨?_, ?_, ?_⟩ <;> field_simp
  rw [calcEverything_actions]
  constructor
  · rw [actionsSeq_getD_thrust realOps cfg st en ia states 0 (by omega) (by omega),
      key0, Vec3.normSq_smul, Mat3.normSq_mulVec_e3 hR, mul_one]
    simp only [realOps]
    exact Real.sqrt_sq h1
  · rw [actionsSeq_getD_thrust realOps cfg st en ia states 1 (by omega) (by omega),
      key1, Vec3.normSq_smul, Mat3.normSq_mulVec_e3 hN, mul_one]
    simp only [realOps]
    exact Real.sqrt_sq h2

/-- Claim C10, witness: at a start state with the identity rotation and zero
angular velocity (so `next_R = R` is orthonormal) and `InitialAccelParams =
(10, 10)`, the first two thrusts are both 10. -/
theorem initial_accel_roundtrip_witness :
    ((calcEverything realOps (⟨2, 5, 500, 10⟩ : Config ℝ) ⟨0, 0, 1, 0⟩ ⟨0, 0, 1, 0⟩
          (10, 10) []).actions.getD 0 default).thrust = 10 ∧
      ((calcEverything realOps (⟨2, 5, 500, 10⟩ : Config ℝ) ⟨0, 0, 1, 0⟩ ⟨0, 0, 1, 0⟩
          (10, 10) []).actions.getD 1 default).thrust = 10 := by
  have hN : (nextR realOps (⟨2, 5, 500, 10⟩ : Config ℝ) ⟨0, 0, 1, 0⟩).IsOrthonormal := by
    rw [nextR, next_rotation_zero_omega_real]
    exact Mat3.isOrthonormal_one
  exact initial_accel_roundtrip ⟨2, 5, 500, 10⟩ ⟨0, 0, 1, 0⟩ ⟨0, 0, 1, 0⟩ (10, 10) []
    (by norm_num) (by norm_num) Mat3.isOrthonormal_one hN (by norm_num) (by norm_num)

end NerfNav
